import Mathlib

/-!
Verification of the Fabric storage layer (`src/types/store.js`, `src/types/actor.js`)
against its natural-language specification.

The JavaScript code is shallowly embedded: JS values are the inductive `JsVal`
(JS numbers are modelled as integers; none of the verified claims involve
floating-point behaviour), JS exceptions are an explicit `JsErr` threaded with
`Except`, and the mutable `Store` instance state is the record `StoreSt` passed
and returned explicitly.

Repository modules that store.js/actor.js properly `require` but that are not
present under src/ (`hash256.js`, `entity.js`, `collection.js`, `stack.js`,
`functions/_sortKeys.js`) are modelled from the spec; each such definition's
doc comment starts with `Modelled from the spec:`.  Two identifiers do NOT
fall under that cover, because the files that would resolve them are fully
present in src/ and demonstrably lack them:

* `this.sha256` / `store.sha256` — store.js invokes it at lines 71, 183, 199,
  294, 313, 367 and 436, but neither store.js nor actor.js defines a `sha256`
  method and `EventEmitter` has none; every such call throws
  `TypeError: this.sha256 is not a function`.
* `State` — store.js requires only level, crypto, json-pointer, Actor,
  Collection, Entity and Stack, never `./state`; `new State(...)` at lines
  197, 262 and 437 throws `ReferenceError: State is not defined`.

Both are modelled as the exceptions they raise, which makes `get`, `set`,
`delete`, `post`, `push` and the trust put-handler unconditionally throwing;
the code past each crash point is still embedded for shape, but no theorem
depends on it.  The external npm `json-pointer` library is embedded from its
published source (escape/unescape, `get` throwing `Invalid reference token`,
`set` creating intermediate containers, the prototype-token skip and the `-`
array token) with own-property lookup only (no prototype chain) and dense
arrays; that code is unreachable from every store operation and no theorem
exercises it.
-/

namespace Fabric

/-- A JavaScript value as manipulated by store.js: `null`, booleans, numbers
(modelled as integers), strings, arrays and plain objects.  Object fields are
kept in insertion order, as JS does. -/
inductive JsVal where
  | vNull : JsVal
  | vBool (b : Bool) : JsVal
  | vNum (n : Int) : JsVal
  | vStr (s : String) : JsVal
  | vArr (elems : List JsVal) : JsVal
  | vObj (fields : List (String × JsVal)) : JsVal
namespace JsVal

/-- First-match association-list lookup, the model of reading a property of a
plain JS object. -/
def lookupF (k : String) : List (String × JsVal) → Option JsVal
  | [] => none
  | (k', v) :: rest => if k = k' then some v else lookupF k rest

/-- JS object property assignment: an existing key is updated in place, a new
key is appended (insertion order preserved). -/
def putF (k : String) (v : JsVal) : List (String × JsVal) → List (String × JsVal)
  | [] => [(k, v)]
  | (k', v') :: rest => if k = k' then (k, v) :: rest else (k', v') :: putF k v rest

end JsVal

open JsVal

/-- Generic first-match association list lookup (used for the flat Store
indices, which are plain JS objects keyed by digest strings). -/
def alookup {α : Type} (k : String) : List (String × α) → Option α
  | [] => none
  | (k', v) :: rest => if k = k' then some v else alookup k rest

/-- Generic JS-object-style assignment for the flat Store indices. -/
def aput {α : Type} (k : String) (v : α) : List (String × α) → List (String × α)
  | [] => [(k, v)]
  | (k', v') :: rest => if k = k' then (k, v) :: rest else (k', v') :: aput k v rest

/-- A JavaScript runtime exception, as surfaced by the embedded operations. -/
inductive JsErr where
  | typeError (msg : String) : JsErr
  | referenceError (msg : String) : JsErr
  | invalidRef (tok : String) : JsErr
  | jsError (msg : String) : JsErr
deriving Repr, DecidableEq

/-! ## Character-level string utilities

`json-pointer` operates on strings with `/` separators and `~0`/`~1` escapes;
we model parsing and escaping over the underlying character lists so that
facts such as "a digest contains no `/`" can be proved. -/

/-- Split a character list on a separator character; always returns at least
one (possibly empty) group, matching JS `String.prototype.split`. -/
def splitChars (sep : Char) : List Char → List (List Char)
  | [] => [[]]
  | c :: cs =>
      if c = sep then [] :: splitChars sep cs
      else
        match splitChars sep cs with
        | [] => [[c]]
        | g :: gs => (c :: g) :: gs

/-- The `json-pointer`'s `unescape`: `~1 → /` then `~0 → ~`, over characters. -/
def unescapeChars : List Char → List Char
  | [] => []
  | [c] => [c]
  | c :: d :: rest =>
      if c = '~' then
        if d = '1' then '/' :: unescapeChars rest
        else if d = '0' then '~' :: unescapeChars rest
        else c :: unescapeChars (d :: rest)
      else c :: unescapeChars (d :: rest)

/-- The `json-pointer`'s `escape`: `~ → ~0` then `/ → ~1`, over characters. -/
def escapeChars : List Char → List Char
  | [] => []
  | '~' :: rest => '~' :: '0' :: escapeChars rest
  | '/' :: rest => '~' :: '1' :: escapeChars rest
  | c :: rest => c :: escapeChars rest

/-- The `pointer.escape` on strings (store.js uses it on whole keys/paths). -/
def escapeStr (s : String) : String := ⟨escapeChars s.data⟩

/-- The `json-pointer`'s `parse`: requires a leading `/`, then splits on `/` and
unescapes each token.  An empty string parses to no tokens; a non-`/` start is
the library's `Invalid JSON pointer` error. -/
def jpParse (p : String) : Except JsErr (List String) :=
  match p.data with
  | [] => .ok []
  | '/' :: rest => .ok ((splitChars '/' rest).map fun g => ⟨unescapeChars g⟩)
  | _ => .error (.jsError ("Invalid JSON pointer: " ++ p))

/-! ## Digest identity -/

/-- Hex digit characters used by the digest model. -/
def hexChar (n : Nat) : Char :=
  if n < 10 then Char.ofNat (48 + n) else Char.ofNat (87 + n)

/-- Hex rendering of a natural number (little-endian digit recursion). -/
def hexOfNat (n : Nat) : List Char :=
  if n < 16 then [hexChar n]
  else hexOfNat (n / 16) ++ [hexChar (n % 16)]
decreasing_by simp_wf; omega

/-- A deterministic rolling hash of a character list (a stand-in for SHA-256;
only determinism — equal input bytes give equal output — is relied upon). -/
def rollHash : List Char → Nat
  | [] => 5381
  | c :: cs => (rollHash cs * 33 + c.toNat) % (2 ^ 64)

/-- Modelled from the spec: `Hash256.digest` (repository file
`types/hash256.js`, not under src/) — "digest(bytes) -> 32-byte value",
rendered as a hex string.  The model prefixes `h` so that a digest is provably
never all-digits, never `-`, never a reserved pointer token and never contains
`/`; real SHA-256 hex output has these properties with overwhelming
probability. -/
def hash256 (s : String) : String := ⟨'h' :: hexOfNat (rollHash s.data)⟩

/-! ## json-pointer `get` and `set`

Embedded from the npm `json-pointer` library used by store.js.  `get` walks
tokens, throwing `Invalid reference token` when a token is not an own property
of the current object (prototype-chain properties such as `constructor` and
array `length` are not modelled; no theorem below uses such tokens).  `set`
follows the library's loop: a `nextTok` variable one token ahead decides
whether a missing intermediate is created as an array or an object, the
`__proto__`/`constructor`/`prototype` tokens are skipped by `continue`, and a
`-` token on an array is replaced by the array length.  The library is not in
strict mode, so a final assignment onto a primitive is a silent no-op.  Errors
abort the whole (functional) update; the partially-mutated tree JS would leave
behind on an exception mid-`set` is not observed by any claim. -/

/-- Canonical numeric-index check for JS array property access (`'5' in arr`). -/
def isCanonIndex (t : String) : Bool :=
  (!t.data.isEmpty) && t.data.all Char.isDigit &&
    (t == "0" || t.data.head? != some '0')

/-- Numeric value of a digit string. -/
def natOfDigits (l : List Char) : Nat :=
  l.foldl (fun acc c => acc * 10 + (c.toNat - 48)) 0

/-- Array index denoted by a token, when canonical. -/
def toIndex (t : String) : Option Nat :=
  if isCanonIndex t then some (natOfDigits t.data) else none

/-- The `^(\d+|-)$` test json-pointer's `set` uses to decide whether a freshly
created intermediate container is an array or an object. -/
def digitsOrDash (t : String) : Bool :=
  t == "-" || ((!t.data.isEmpty) && t.data.all Char.isDigit)

/-- The tokens json-pointer's `set` loop skips (`continue`) to avoid prototype
pollution. -/
def isMagicTok (t : String) : Bool :=
  t == "__proto__" || t == "constructor" || t == "prototype"

/-- json-pointer `get`: walk the token list. -/
def jpGet (v : JsVal) (toks : List String) : Except JsErr JsVal :=
  match toks with
  | [] => .ok v
  | t :: rest =>
      match v with
      | .vObj fs =>
          match lookupF t fs with
          | some child => jpGet child rest
          | none => .error (.invalidRef t)
      | .vArr xs =>
          match toIndex t with
          | some i =>
              if h : i < xs.length then jpGet (xs.get ⟨i, h⟩) rest
              else .error (.invalidRef t)
          | none => .error (.invalidRef t)
      | .vNull =>
          .error (.typeError ("Cannot use 'in' operator to search for '" ++ t ++ "' in null"))
      | _ => .error (.invalidRef t)

/-- The final assignment `obj[nextTok] = value` of json-pointer's `set`. -/
def jpFinal (v : JsVal) (nextTok : String) (x : JsVal) : Except JsErr JsVal :=
  match v with
  | .vObj fs => .ok (.vObj (putF nextTok x fs))
  | .vArr xs =>
      let nt := if nextTok == "-" then toString xs.length else nextTok
      match toIndex nt with
      | some i =>
          if i < xs.length then .ok (.vArr (xs.set i x))
          else .ok (.vArr (xs ++ List.replicate (i - xs.length) .vNull ++ [x]))
      | none => .error (.typeError "string-keyed property assignment on an array is not modelled")
  | other => .ok other

/-- The descent loop of json-pointer's `set`; `pending` pairs each loop token
with its successor (the library's `nextTok` bookkeeping), `nextTok` is the
current value of that variable. -/
def jpSetLoop (v : JsVal) (pending : List (String × String)) (nextTok : String) (x : JsVal) :
    Except JsErr JsVal :=
  match pending with
  | [] => jpFinal v nextTok x
  | (tok, nt) :: rest =>
      if isMagicTok tok then jpSetLoop v rest nextTok x
      else
        match v with
        | .vObj fs =>
            match lookupF tok fs with
            | some child => do
                let child' ← jpSetLoop child rest nt x
                .ok (.vObj (putF tok child' fs))
            | none => do
                let fresh : JsVal := if digitsOrDash nt then .vArr [] else .vObj []
                let child' ← jpSetLoop fresh rest nt x
                .ok (.vObj (putF tok child' fs))
        | .vArr xs =>
            let tok := if tok == "-" then toString xs.length else tok
            match toIndex tok with
            | some i =>
                if h : i < xs.length then do
                  let child' ← jpSetLoop (xs.get ⟨i, h⟩) rest nt x
                  .ok (.vArr (xs.set i child'))
                else do
                  let fresh : JsVal := if digitsOrDash nt then .vArr [] else .vObj []
                  let child' ← jpSetLoop fresh rest nt x
                  .ok (.vArr (xs ++ List.replicate (i - xs.length) .vNull ++ [child']))
            | none =>
                .error (.typeError "string-keyed descent into an array is not modelled")
        | .vNull =>
            .error (.typeError ("Cannot use 'in' operator to search for '" ++ tok ++ "' in null"))
        | _ =>
            .error (.typeError ("Cannot use 'in' operator to search for '" ++ tok ++ "'"))

/-- json-pointer `set`: an empty pointer is the library's `Can not set the root
object` error; otherwise run the loop with `nextTok` initialised to the first
token. -/
def jpSet (v : JsVal) (toks : List String) (x : JsVal) : Except JsErr JsVal :=
  match toks with
  | [] => .error (.jsError "Can not set the root object")
  | t0 :: rest => jpSetLoop v (toks.zip rest) t0 x

/-! ## Canonicalization and digest identity of values -/

/-- Less-or-equal on object fields, comparing keys (the recursive key sort of
canonicalization orders fields by key). -/
def fieldLE (a b : String × JsVal) : Prop := a.1 ≤ b.1

instance : DecidableRel fieldLE := fun a b => inferInstanceAs (Decidable (a.1 ≤ b.1))

instance : IsTotal (String × JsVal) fieldLE := ⟨fun a b => le_total a.1 b.1⟩

instance : IsTrans (String × JsVal) fieldLE := ⟨fun _ _ _ h1 h2 => le_trans h1 h2⟩

/-- Sort an object's field list by key (stable insertion sort). -/
def sortFields (l : List (String × JsVal)) : List (String × JsVal) :=
  List.insertionSort fieldLE l

mutual

/-- Modelled from the spec: `_sortKeys` (repository file
`functions/_sortKeys.js`, not under src/) — "deterministic, recursive
key-sorted serialization": mapping keys are sorted recursively at every level;
array order is preserved. -/
def sortKeysV : JsVal → JsVal
  | .vNull => .vNull
  | .vBool b => .vBool b
  | .vNum n => .vNum n
  | .vStr s => .vStr s
  | .vArr xs => .vArr (sortKeysArr xs)
  | .vObj fs => .vObj (sortFields (sortKeysFields fs))

/-- Recursive key sort mapped over an array's elements. -/
def sortKeysArr : List JsVal → List JsVal
  | [] => []
  | v :: rest => sortKeysV v :: sortKeysArr rest

/-- Recursive key sort mapped over an object's field values. -/
def sortKeysFields : List (String × JsVal) → List (String × JsVal)
  | [] => []
  | (k, v) :: rest => (k, sortKeysV v) :: sortKeysFields rest

end

/-- JSON string-content escaping (quote and backslash; other characters pass
through, enough for the values handled here). -/
def escapeJsonChars : List Char → List Char
  | [] => []
  | c :: rest =>
      if c = '"' ∨ c = '\\' then '\\' :: c :: escapeJsonChars rest
      else c :: escapeJsonChars rest

mutual

/-- The `JSON.stringify`, modelled compactly (the `'  '` indent argument used by
actor.js only inserts whitespace and never affects which serializations
coincide; no claim inspects the exact bytes). -/
def stringifyV : JsVal → String
  | .vNull => "null"
  | .vBool b => if b then "true" else "false"
  | .vNum n => toString n
  | .vStr s => "\"" ++ (⟨escapeJsonChars s.data⟩ : String) ++ "\""
  | .vArr xs => "[" ++ stringifyArr xs ++ "]"
  | .vObj fs => "\x7b" ++ stringifyFields fs ++ "\x7d"

/-- Comma-joined serialization of array elements. -/
def stringifyArr : List JsVal → String
  | [] => ""
  | [v] => stringifyV v
  | v :: rest => stringifyV v ++ "," ++ stringifyArr rest

/-- Comma-joined serialization of object fields, in field order. -/
def stringifyFields : List (String × JsVal) → String
  | [] => ""
  | [(k, v)] => "\"" ++ k ++ "\":" ++ stringifyV v
  | (k, v) :: rest => "\"" ++ k ++ "\":" ++ stringifyV v ++ "," ++ stringifyFields rest

end

/-- Modelled from the spec: `canonicalize(value) -> bytes` (§4.1) —
deterministic recursive key-sorted serialization. -/
def canonicalString (v : JsVal) : String := stringifyV (sortKeysV v)

/-- Modelled from the spec: the content identity of a value (§3/§4.1) — the
digest of its canonical serialization, `Digest(canonicalize(value))`. -/
def stateId (v : JsVal) : String := hash256 (canonicalString v)

/-- Every `this.sha256(...)` call in store.js (lines 71, 183, 199, 294, 313,
367): neither store.js nor actor.js — both fully present under src/ — defines
a `sha256` method, and `EventEmitter` has none, so looking the method up
yields `undefined` and the call throws.  The argument is never evaluated into
a digest, so the model takes none. -/
def sha256Missing : Except JsErr String :=
  .error (.typeError "this.sha256 is not a function")

/-- The same missing method reached through the `store` closure variable in
the trust put-handler, `store.sha256(id)` (store.js:436). -/
def storeSha256Missing : Except JsErr String :=
  .error (.typeError "store.sha256 is not a function")

/-- Every `new State(...)` in store.js (lines 197, 262, 437): store.js
requires only level, crypto, json-pointer, Actor, Collection, Entity and
Stack (store.js:4-12), never `./state`, so the identifier `State` is unbound
and the construction throws a ReferenceError. -/
def stateUndefined : Except JsErr JsVal :=
  .error (.referenceError "State is not defined")

/-- The `value.constructor.name`: throws a TypeError on `null`, otherwise yields
the JS constructor name of the value. -/
def constructorName : JsVal → Except JsErr String
  | .vNull => .error (.typeError "Cannot read properties of null (reading 'constructor')")
  | .vBool _ => .ok "Boolean"
  | .vNum _ => .ok "Number"
  | .vStr _ => .ok "String"
  | .vArr _ => .ok "Array"
  | .vObj _ => .ok "Object"

/-- JS falsiness (`!value`), used by `current || {}` in `_PATCH` and
`if (!list)` in `_PUSH`. -/
def jsFalsy : JsVal → Bool
  | .vNull => true
  | .vBool b => !b
  | .vNum n => n == 0
  | .vStr s => s == ""
  | _ => false

/-- Enumerable own properties of a value, as spread by `Object.assign`:
object fields in order, array/string elements under their index keys,
primitives contribute nothing. -/
def ownProps : JsVal → List (String × JsVal)
  | .vObj fs => fs
  | .vArr xs => xs.enum.map fun p => (toString p.1, p.2)
  | .vStr s => s.data.enum.map fun p => (toString p.1, .vStr ⟨[p.2]⟩)
  | _ => []

/-- The `Object.assign(target, src)` over a field list: each own property of
`src` is assigned onto the target in order. -/
def assignProps (target : List (String × JsVal)) (src : JsVal) : List (String × JsVal) :=
  (ownProps src).foldl (fun acc kv => putF kv.1 kv.2 acc) target

/-! ## Actor identity (src/types/actor.js) -/

/-- The `Actor.prototype._readObject` (actor.js:202): a string becomes
`{type:'String', content}`, anything else is shallow-copied with
`Object.assign({}, input)` (which spreads arrays/strings by index and turns
primitives into `{}`). -/
def readObject : JsVal → JsVal
  | .vStr s => .vObj [("type", .vStr "String"), ("content", .vStr s)]
  | v => .vObj (assignProps [] v)

/-- The Actor's `_state.content` (actor.js:40-45): `this.value || {}`;
`readObject` always yields an object, which is truthy, so this is the value
itself. -/
def actorContent (input : JsVal) : JsVal := readObject input

/-- The `Actor.prototype.toObject` (actor.js:131): `_sortKeys(this.state)`. -/
def actorToObject (input : JsVal) : JsVal := sortKeysV (actorContent input)

/-- The `Actor.prototype.serialize` (actor.js:155): `JSON.stringify(toObject())`
(2-space indent modelled compactly; determinism is unaffected). -/
def actorSerialize (input : JsVal) : String := stringifyV (actorToObject input)

/-- The `preimage` getter (actor.js:87) as a function of the Actor's current
state content:
`Hash256.digest(JSON.stringify({'@type':'FabricActorState','@data':_sortKeys(state)}))`. -/
def preimageOfContent (content : JsVal) : String :=
  hash256 (stringifyV (.vObj [("@type", .vStr "FabricActorState"),
                              ("@data", sortKeysV content)]))

/-- The `id` getter (actor.js:82) as a function of the Actor's state content:
`Hash256.digest(Buffer.from(preimage, 'hex'))`.  The hex-decoded byte buffer
is a deterministic injective function of the preimage, modelled by tagging
the preimage string. -/
def idOfContent (content : JsVal) : String :=
  hash256 ("hexbytes:" ++ preimageOfContent content)

/-- The `preimage` of an Actor built by `new Actor(input)`. -/
def actorPreimage (input : JsVal) : String := preimageOfContent (actorContent input)

/-- The `id` of an Actor built by `new Actor(input)`. -/
def actorIdOf (input : JsVal) : String := idOfContent (actorContent input)

/-- The `Actor.prototype.sign` (actor.js:174): unconditionally throws; the
commented-out signing code never runs, so `signature` (set to `null` in the
constructor, actor.js:36) is never assigned. -/
def actorSign (_input : JsVal) : Except JsErr JsVal :=
  .error (.jsError "Unimplemented on this branch.  Use @fabric/core/types/signer instead.")

/-- The `signature` field of a freshly constructed Actor (actor.js:36). -/
def actorSignatureInit : Option String := none

/-! ## Entity (commit snapshot object) -/

/-- Modelled from the spec: an Entity is "a typed record `{type, data}` whose
identity is `Digest(canonical(entity))`" (§3; repository file
`types/entity.js`, not under src/).  `new Entity(undefined)` takes the
constructor's default `{}` for its data. -/
structure EntityT where
  edata : JsVal

/-- The Entity built from an optional (possibly `undefined`) input. -/
def entityOf (input : Option JsVal) : EntityT := { edata := input.getD (.vObj []) }

/-- The Entity's content identity: digest of its canonical serialized form. -/
def entityIdOf (e : EntityT) : String :=
  hash256 (canonicalString (.vObj [("type", .vStr "Entity"), ("data", e.edata)]))

/-! ## Store state and operations (src/types/store.js) -/

/-- An event emitted by a Store: the `commit` event (store.js:494) and the
normalized `source/events` mirror notification (store.js:446-453, with its
fixed `'@type':'Request'`, `'@method':'put'`, `'@actor':'~level'` fields). -/
inductive StoreEvent where
  | commitEv (id : String) (data : JsVal)
  | sourceEv (object target : String) (data : JsVal)

/-- The `{type, size, hash}` descriptor produced by `getDataInfo`
(store.js:285). -/
structure DataInfo where
  infoType : String
  infoSize : Option Nat
  infoHash : Option String

/-- The mutable state of one Store instance: the logical content tree
(`_state.content`), the four flat indices, the `@entity['@data']` aggregate
written by `trust`, the `keys` registry and the lazily-opened engine handle
(a flat key/serialized-value map). -/
structure StoreSt where
  content : JsVal
  actors : List (String × JsVal)
  documents : List (String × JsVal)
  indices : List (String × String)
  metadata : List (String × DataInfo)
  entityData : JsVal
  keysReg : List (String × (String × String))
  db : Option (List (String × String))

/-- A Store as the constructor leaves it (store.js:25-67): empty content
tree, empty indices, `'@entity':{'@type':'Store','@data':{}}`, no engine
handle. -/
def freshStore : StoreSt :=
  { content := .vObj [], actors := [], documents := [], indices := [],
    metadata := [], entityData := .vObj [], keysReg := [], db := none }

/-- The route descriptor of `getRouteInfo` (store.js:309): normalized path,
escaped pointer, and the route digest `sha256(escaped path)`. -/
structure RouteInfo where
  rpath : String
  rpointer : String
  rindex : String

/-- The normalization `if (path.substring(0,1) !== '/') path = '/' + path`
(store.js:310), stated on the first character. -/
def normalizePath (path : String) : String :=
  if path.data.head? = some '/' then path else "/" ++ path

/-- The `getRouteInfo` (store.js:309-320): normalizes the path, escapes it and
then calls `this.sha256(id)` (store.js:313) — which throws, because the Store
has no `sha256` method; the route descriptor is never produced. -/
def routeInfo (path : String) : Except JsErr RouteInfo := do
  let p := normalizePath path
  let id := escapeStr p
  let router ← sha256Missing
  .ok { rpath := p, rpointer := id, rindex := router }

/-- The `get` (store.js:337-351): awaits `getRouteInfo` — which always throws
at its `this.sha256` call (store.js:313) — so `get` rejects with that
TypeError for every path.  The rest of the method (`pointer.get` on the
content tree, which throws for a missing path, and the unguarded
`this._state.metadata[route.index].type` read, which throws when no metadata
record exists) is embedded for shape but never reached. -/
def storeGet (s : StoreSt) (key : String) : Except JsErr JsVal := do
  let route ← routeInfo key
  let toks ← jpParse route.rpath
  let result ← jpGet s.content toks
  match alookup route.rindex s.metadata with
  | none => .error (.typeError "Cannot read properties of undefined (reading 'type')")
  | some _ => .ok result

/-- The `_GET` (store.js:123-135): `get` with every exception caught and `null`
returned. -/
def storeGETrec (s : StoreSt) (key : String) : Option JsVal :=
  (storeGet s key).toOption

/-- The `getDataInfo` (store.js:285-307): reads `value.constructor.name` (throws
on `null`); the `'String'` case then calls `hash = this.sha256(value)`
(store.js:294), which throws because no `sha256` method exists; everything
else falls through to `{type:'Unhandled'}` with `size`/`hash` left `null`. -/
def getDataInfo (value : JsVal) : Except JsErr DataInfo := do
  let cn ← constructorName value
  match cn with
  | "String" => do
      let h ← sha256Missing
      .ok { infoType := "JSONString",
            infoSize := some (match value with | .vStr s => s.length | _ => 0),
            infoHash := some h }
  | _ => .ok { infoType := "Unhandled", infoSize := none, infoHash := none }

/-- Hex rendering of a string's characters (`Buffer.from(v,'utf8').toString('hex')`,
modelled per character; deterministic, used only as opaque content). -/
def hexEncodeStr (s : String) : String :=
  ⟨(s.data.map fun c => hexOfNat c.toNat).flatten⟩

/-- The `encodeValue` (store.js:273-283): primitive strings are not `String`
objects, so every value is `JSON.stringify`-ed (reading `constructor.name`,
which throws on `null`) and hex-encoded. -/
def encodeValue (value : JsVal) : Except JsErr String := do
  let _ ← constructorName value
  .ok (hexEncodeStr (stringifyV value))

/-- The `commit` (store.js:491-497): `new Entity(this.state.state)` — the `state`
member of the content tree (`this.state` is the Actor getter for
`_state.content`), `undefined` when absent — then emits
`commit(entity.id, entity.data)`.  Nothing is persisted and the store state
is unchanged. -/
def stateMemberOf : JsVal → Except JsErr (Option JsVal)
  | .vNull => .error (.typeError "Cannot read properties of null (reading 'state')")
  | .vObj fs => .ok (lookupF "state" fs)
  | _ => .ok none

def storeCommit (s : StoreSt) : Except JsErr (EntityT × StoreEvent × StoreSt) := do
  let st ← stateMemberOf s.content
  let entity := entityOf st
  .ok (entity, .commitEv (entityIdOf entity) entity.edata, s)

/-- The `set` (store.js:358-385): its first statement awaits `getRouteInfo`
(store.js:359), which always throws `this.sha256 is not a function`
(store.js:313), so every `set` rejects before anything is read or written.
The remainder — data info, `this.sha256(value)` (store.js:367, which would
also throw), the document-actor record, the four index writes, `pointer.set`
into the content tree, the un-awaited commit and the read-back `get` — is
embedded for shape but never reached. -/
def storeSet (s : StoreSt) (key : String) (value : JsVal) :
    Except JsErr (JsVal × StoreSt × List StoreEvent) := do
  let route ← routeInfo key
  let info ← getDataInfo value
  let data ← encodeValue value
  let hash ← sha256Missing
  let actorVal : JsVal := .vObj [("type", .vStr "FabricDocument"), ("content", .vStr data),
                                 ("encoding", .vStr "json"), ("original", value)]
  let s1 : StoreSt :=
    { s with actors := aput (actorIdOf actorVal) actorVal s.actors,
             documents := aput hash value s.documents,
             indices := aput route.rindex route.rpointer s.indices,
             metadata := aput route.rindex info s.metadata }
  let toks ← jpParse route.rpath
  let content' ← jpSet s1.content toks value
  let s2 := { s1 with content := content' }
  -- `this.commit()` is not awaited (store.js:382): a rejection inside it is a
  -- dropped promise, never a synchronous exception of `set`
  let evs : List StoreEvent := match storeCommit s2 with
    | .ok (_, ev, _) => [ev]
    | .error _ => []
  let out ← storeGet s2 key
  .ok (out, s2, evs)

/-- The `_DELETE` (store.js:145-148): `_PUT(key, null)` — that is, `set(key, null)`
— then return `null`. -/
def storeDELETE (s : StoreSt) (key : String) :
    Except JsErr (JsVal × StoreSt × List StoreEvent) := do
  let (_, s', evs) ← storeSet s key .vNull
  .ok (.vNull, s', evs)

/-- The first statement of `_PATCH` (store.js:151) invokes `this.log(...)`;
actor.js:35 sets `this.log = []` (an Array) and nothing ever replaces it, so
the call itself throws. -/
def jsLogCall : Except JsErr Unit :=
  .error (.typeError "this.log is not a function")

/-- The `_PATCH` (store.js:150-167): the (always-throwing) `this.log` call, then
`Object.assign({}, current || {}, patch)` over the `_GET` result, a guarded
`_PUT` whose failure is only logged, and the merged result returned. -/
def storePATCH (s : StoreSt) (key : String) (patch : JsVal) :
    Except JsErr (JsVal × StoreSt × List StoreEvent) := do
  jsLogCall
  let current := storeGETrec s key
  let base : JsVal := match current with
    | some c => if jsFalsy c then .vObj [] else c
    | none => .vObj []
  let result : JsVal := .vObj (assignProps (assignProps [] base) patch)
  match storeSet s key result with
  | .ok (_, s', evs) => .ok (result, s', evs)
  | .error _ => .ok (result, s, [])

/-- The `_REGISTER` (store.js:96-121): constructs an Actor and reads
`/entities/{actor.id}`, then executes `store.log('[STORE]', '_REGISTER',
vector.id, ...)` — neither `store` nor `vector` is declared anywhere in
scope, so the method always throws a ReferenceError. -/
def storeREGISTER (s : StoreSt) (obj : JsVal) : Except JsErr JsVal :=
  let _actor := readObject obj
  let _existing := storeGETrec s ("/entities/" ++ actorIdOf obj)
  .error (.referenceError "store is not defined")

/-- Modelled from the spec: `Stack` (§3, repository file `types/stack.js`,
not under src/) — an ordered sequence of content identities; `push` appends
and returns the new length; `'@data'` is the order list. -/
def stackPush (list : List JsVal) (id : String) : List JsVal × Nat :=
  (list ++ [.vStr id], list.length + 1)

/-- The `_PUSH` (store.js:257-271): load the stack order list via `_GET`
(recovered to `[]` when falsy), then `new State(data)` (store.js:262) —
`State` is an unbound identifier in store.js, so every push throws a
ReferenceError there.  The rest — `Stack.push`, `_REGISTER` (itself a
guaranteed ReferenceError at store.js:100), the blob write, the order-list
write, the commit and the read-back — is embedded for shape but never
reached. -/
def storePUSH (s : StoreSt) (key : String) (data : JsVal) : Except JsErr JsVal := do
  let id := escapeStr key
  let path := "/stacks/" ++ id
  let list := storeGETrec s path
  let listv : List JsVal := match list with
    | some l => if jsFalsy l then [] else (match l with | .vArr xs => xs | _ => [])
    | none => []
  let vector ← stateUndefined
  let vectorId := actorIdOf vector
  let (_stack', _height) := stackPush listv vectorId
  let _actor ← storeREGISTER s data
  let blobPath := "/blobs/" ++ vectorId
  let out := storeGETrec s blobPath
  .ok (out.getD .vNull)

/-- Modelled from the spec: `Collection` (§3, repository file
`types/collection.js`, not under src/) — an append-ordered identity list;
`push(value)` appends the value's content identity and returns the new
length; serialization is the ordered identity list. -/
def collectionSerial (ids : List String) : String :=
  stringifyV (.vArr (ids.map JsVal.vStr))

/-- The `addresses` member of `'@entity'['@data']` as JS member access reads
it (`undefined` — `none` — when absent or when the holder is a primitive). -/
def addressesMember : JsVal → Option JsVal
  | .vObj fs => lookupF "addresses" fs
  | _ => none

/-- The `_POST` (store.js:175-255): after escaping the key its preamble calls
`let router = this.sha256(path)` (store.js:183), which throws — the Store has
no `sha256` method — so every post rejects there, outside any try/catch.
The remainder (the `keys` registration, the
`self['@entity']['@data'].addresses[router] = address` assignment at
store.js:195 — itself a guaranteed TypeError since `'@data'` is initialised
to `{}` and `addresses` never created — the `new State(value)` at
store.js:197, the guarded append/persist steps and the `state.link` return
with `false` on caught failure) is embedded for shape but never reached. -/
def storePOST (s : StoreSt) (key : String) (value : JsVal) :
    Except JsErr (JsVal × StoreSt) := do
  let _path := escapeStr key
  let router ← sha256Missing
  let address := "/collections/" ++ router
  let s0 := if (alookup address s.keysReg).isNone
    then { s with keysReg := aput address (key, address) s.keysReg }
    else s
  -- the `keys` registration above only touches `keysReg`, so `'@entity'['@data']`
  -- is read off `s` directly
  match s.entityData with
  | .vObj fs =>
      match lookupF "addresses" fs with
      | none => .error (.typeError ("Cannot set properties of undefined (setting '" ++ router ++ "')"))
      | some (.vObj afs) => do
          let s1 := { s0 with entityData := .vObj (putF "addresses" (.vObj (putF router (.vStr address) afs)) fs) }
          let state ← stateUndefined
          let _digest ← sha256Missing
          let s2 := if s1.db.isNone then { s1 with db := some [] } else s1
          let _entity := (s2.db.getD []).lookup address
          let priorIds : List String := []
          let sid := actorIdOf state
          match storeSet s2 ("/entities/" ++ sid) value with
          | .error _ => .ok (.vBool false, s2)
          | .ok (_, s3, _) =>
              let newIds := priorIds ++ [sid]
              let s4 := { s3 with db := some (aput address (collectionSerial newIds) (s3.db.getD [])) }
              .ok (.vStr ("/entities/" ++ sid), s4)
      | some _ => .error (.typeError "Cannot set properties of a primitive 'addresses' member")
  | _ => .error (.typeError "Cannot read properties of undefined (reading 'addresses')")

/-- The `put` handler registered by `trust` (store.js:431-454): escape the
key, then `let router = store.sha256(id)` (store.js:436) — the Store has no
`sha256` method, so every put notification from a trusted source throws a
TypeError there; `new State(value)` on the next line (store.js:437) would
throw a ReferenceError as well.  The six `pointer.set` mirror writes
(store.js:439-444) and the re-emitted `source/events` notification
(store.js:446-453) are embedded for shape but never execute: nothing is ever
recorded and nothing re-emitted. -/
def trustPutHandler (s : StoreSt) (key : String) (value : JsVal) :
    Except JsErr (StoreSt × StoreEvent) := do
  let id := escapeStr key
  let router ← storeSha256Missing
  let state ← stateUndefined
  let sid := actorIdOf state
  let name := "/sources/" ++ idOfContent s.content
  let toks1 ← jpParse name
  let d1 ← jpSet s.entityData toks1 value
  let toks2 ← jpParse ("/states/" ++ sid)
  let d2 ← jpSet d1 toks2 value
  let toks3 ← jpParse ("/blobs/" ++ sid)
  let d3 ← jpSet d2 toks3 (.vStr (canonicalString state))
  let cn ← constructorName value
  let toks4 ← jpParse ("/types/" ++ sid)
  let d4 ← jpSet d3 toks4 (.vStr cn)
  let toks5 ← jpParse ("/tips/" ++ router)
  let d5 ← jpSet d4 toks5 (.vStr sid)
  let toks6 ← jpParse ("/names/" ++ router)
  let d6 ← jpSet d5 toks6 (.vStr id)
  .ok ({ s with entityData := d6 }, .sourceEv sid key value)

/-! ## Deep equality up to object-key insertion order

`PermEq v w` holds when `v` and `w` are structurally (deep) equal JS values
that may differ in the insertion order of object keys: arrays must agree
pointwise in order, objects up to a permutation of their field lists with
pointwise `PermEq` values (the `cons` constructor inserts the matching field
at an arbitrary position).  `WfV` is well-formedness of a value as a JS
value: object key lists never contain duplicates. -/

mutual

inductive WfV : JsVal → Prop
  | null : WfV .vNull
  | bool (b : Bool) : WfV (.vBool b)
  | num (n : Int) : WfV (.vNum n)
  | str (s : String) : WfV (.vStr s)
  | arr (xs : List JsVal) : WfList xs → WfV (.vArr xs)
  | obj (fs : List (String × JsVal)) :
      (fs.map Prod.fst).Nodup → WfFields fs → WfV (.vObj fs)

inductive WfList : List JsVal → Prop
  | nil : WfList []
  | cons (v : JsVal) (vs : List JsVal) : WfV v → WfList vs → WfList (v :: vs)

inductive WfFields : List (String × JsVal) → Prop
  | nil : WfFields []
  | cons (k : String) (v : JsVal) (fs : List (String × JsVal)) :
      WfV v → WfFields fs → WfFields ((k, v) :: fs)

end

mutual

inductive PermEq : JsVal → JsVal → Prop
  | null : PermEq .vNull .vNull
  | bool (b : Bool) : PermEq (.vBool b) (.vBool b)
  | num (n : Int) : PermEq (.vNum n) (.vNum n)
  | str (s : String) : PermEq (.vStr s) (.vStr s)
  | arr (xs ys : List JsVal) : PermEqList xs ys → PermEq (.vArr xs) (.vArr ys)
  | obj (fs gs : List (String × JsVal)) : PermEqFields fs gs → PermEq (.vObj fs) (.vObj gs)

inductive PermEqList : List JsVal → List JsVal → Prop
  | nil : PermEqList [] []
  | cons (v w : JsVal) (vs ws : List JsVal) :
      PermEq v w → PermEqList vs ws → PermEqList (v :: vs) (w :: ws)

inductive PermEqFields : List (String × JsVal) → List (String × JsVal) → Prop
  | nil : PermEqFields [] []
  | cons (k : String) (v w : JsVal) (fs gs₁ gs₂ : List (String × JsVal)) :
      PermEq v w → PermEqFields fs (gs₁ ++ gs₂) →
      PermEqFields ((k, v) :: fs) (gs₁ ++ (k, w) :: gs₂)

end

/-- A sample object, used as a concrete witness input: `{b:1, a:{d:2, c:3}}`. -/
def sampleA : List (String × JsVal) :=
  [("b", .vNum 1), ("a", .vObj [("d", .vNum 2), ("c", .vNum 3)])]

/-- The same object constructed in a different key insertion order:
`{a:{c:3, d:2}, b:1}`. -/
def sampleB : List (String × JsVal) :=
  [("a", .vObj [("c", .vNum 3), ("d", .vNum 2)]), ("b", .vNum 1)]

/-- Strict key order on object fields (used to pin down the sorted form). -/
def fieldLT (a b : String × JsVal) : Prop := a.1 < b.1

instance : IsAntisymm (String × JsVal) fieldLT :=
  ⟨fun _ _ h1 h2 => absurd h2 (lt_asymm h1)⟩

/-! ## Canonicalization is insensitive to key insertion order -/

theorem sortKeysFields_eq_map (fs : List (String × JsVal)) :
    sortKeysFields fs = fs.map fun kv => (kv.1, sortKeysV kv.2) := by
  induction fs with
  | nil => simp [sortKeysFields]
  | cons hd tl ih =>
      obtain ⟨k, v⟩ := hd
      simp [sortKeysFields, ih]

theorem sortKeysArr_eq_map (xs : List JsVal) :
    sortKeysArr xs = xs.map sortKeysV := by
  induction xs with
  | nil => simp [sortKeysArr]
  | cons hd tl ih => simp [sortKeysArr, ih]

theorem lookupF_append (k : String) (a b : List (String × JsVal)) :
    lookupF k (a ++ b)
      = match lookupF k a with
        | some v => some v
        | none => lookupF k b := by
  induction a with
  | nil => simp [lookupF]
  | cons hd tl ih =>
      obtain ⟨k', v'⟩ := hd
      by_cases h : k = k' <;> simp [lookupF, h, ih]

theorem putF_absent (k : String) (v : JsVal) (l : List (String × JsVal))
    (h : lookupF k l = none) : putF k v l = l ++ [(k, v)] := by
  induction l with
  | nil => rfl
  | cons hd tl ih =>
      obtain ⟨k', v'⟩ := hd
      by_cases hk : k = k'
      · simp [lookupF, hk] at h
      · simp only [lookupF, if_neg hk] at h
        simp [putF, hk, ih h]

theorem assignProps_fold (fs : List (String × JsVal)) :
    ∀ acc : List (String × JsVal),
      (fs.map Prod.fst).Nodup → (∀ kv ∈ fs, lookupF kv.1 acc = none) →
      fs.foldl (fun a kv => putF kv.1 kv.2 a) acc = acc ++ fs := by
  induction fs with
  | nil => intro acc _ _; simp
  | cons hd tl ih =>
      intro acc hn hdisj
      obtain ⟨k, v⟩ := hd
      simp only [List.map_cons, List.nodup_cons] at hn
      have hacc : lookupF k acc = none := hdisj (k, v) (by simp)
      have hstep : putF k v acc = acc ++ [(k, v)] := putF_absent k v acc hacc
      have hdisj' : ∀ kv ∈ tl, lookupF kv.1 (acc ++ [(k, v)]) = none := by
        intro kv hkv
        rw [lookupF_append]
        have h1 : lookupF kv.1 acc = none := hdisj kv (by simp [hkv])
        have h2 : kv.1 ≠ k := by
          intro hk
          exact hn.1 (hk ▸ List.mem_map_of_mem Prod.fst hkv)
        simp [h1, lookupF, h2]
      calc ((k, v) :: tl).foldl (fun a kv => putF kv.1 kv.2 a) acc
          = tl.foldl (fun a kv => putF kv.1 kv.2 a) (putF k v acc) := by simp
        _ = tl.foldl (fun a kv => putF kv.1 kv.2 a) (acc ++ [(k, v)]) := by rw [hstep]
        _ = (acc ++ [(k, v)]) ++ tl := ih (acc ++ [(k, v)]) hn.2 hdisj'
        _ = acc ++ ((k, v) :: tl) := by simp

theorem assignProps_nil_obj (fs : List (String × JsVal))
    (hn : (fs.map Prod.fst).Nodup) : assignProps [] (.vObj fs) = fs := by
  have := assignProps_fold fs [] hn (fun kv _ => rfl)
  simpa [assignProps, ownProps] using this

theorem sortFields_perm_nodup (l₁ l₂ : List (String × JsVal))
    (hp : l₁.Perm l₂) (hn : (l₁.map Prod.fst).Nodup) :
    sortFields l₁ = sortFields l₂ := by
  have h1 : (sortFields l₁).Perm l₁ := List.perm_insertionSort fieldLE l₁
  have h2 : (sortFields l₂).Perm l₂ := List.perm_insertionSort fieldLE l₂
  have hperm : (sortFields l₁).Perm (sortFields l₂) := h1.trans (hp.trans h2.symm)
  have hs1 : List.Sorted fieldLE (sortFields l₁) := List.sorted_insertionSort fieldLE l₁
  have hs2 : List.Sorted fieldLE (sortFields l₂) := List.sorted_insertionSort fieldLE l₂
  have hn2 : (l₂.map Prod.fst).Nodup := ((hp.map Prod.fst).nodup_iff).mp hn
  have hn1' : ((sortFields l₁).map Prod.fst).Nodup := ((h1.map Prod.fst).nodup_iff).mpr hn
  have hn2' : ((sortFields l₂).map Prod.fst).Nodup := ((h2.map Prod.fst).nodup_iff).mpr hn2
  have hlt1 : List.Sorted fieldLT (sortFields l₁) := by
    have hne : (sortFields l₁).Pairwise fun a b => a.1 ≠ b.1 :=
      (List.pairwise_map).mp hn1'
    exact (hs1.and hne).imp fun h => lt_of_le_of_ne h.1 h.2
  have hlt2 : List.Sorted fieldLT (sortFields l₂) := by
    have hne : (sortFields l₂).Pairwise fun a b => a.1 ≠ b.1 :=
      (List.pairwise_map).mp hn2'
    exact (hs2.and hne).imp fun h => lt_of_le_of_ne h.1 h.2
  exact List.eq_of_perm_of_sorted hperm hlt1 hlt2

theorem wfFields_append_elim (k : String) (w : JsVal) (gs₁ gs₂ : List (String × JsVal))
    (h : WfFields (gs₁ ++ (k, w) :: gs₂)) : WfV w ∧ WfFields (gs₁ ++ gs₂) := by
  induction gs₁ with
  | nil =>
      cases h with
      | cons _ _ _ hw hrest => exact ⟨hw, hrest⟩
  | cons hd tl ih =>
      obtain ⟨k', v'⟩ := hd
      cases h with
      | cons _ _ _ hv hrest =>
          obtain ⟨hw, htl⟩ := ih hrest
          exact ⟨hw, .cons k' v' (tl ++ gs₂) hv htl⟩

mutual

theorem permEq_sortKeys : ∀ {v w : JsVal},
    PermEq v w → WfV v → WfV w → sortKeysV v = sortKeysV w
  | _, _, .null, _, _ => rfl
  | _, _, .bool b, _, _ => rfl
  | _, _, .num n, _, _ => rfl
  | _, _, .str s, _, _ => rfl
  | _, _, .arr xs ys hl, hv, hw => by
      cases hv with
      | arr _ hxs =>
          cases hw with
          | arr _ hys =>
              have h := permEqList_sortKeys hl hxs hys
              simp only [sortKeysV]
              rw [h]
  | _, _, .obj fs gs hfg, hv, hw => by
      cases hv with
      | obj _ hn1 hf =>
          cases hw with
          | obj _ hn2 hg =>
              have hperm : (sortKeysFields fs).Perm (sortKeysFields gs) :=
                permEqFields_sortKeys hfg hf hg
              have hkeys : (sortKeysFields fs).map Prod.fst = fs.map Prod.fst := by
                rw [sortKeysFields_eq_map, List.map_map]
                rfl
              have hn1' : ((sortKeysFields fs).map Prod.fst).Nodup := by
                rw [hkeys]; exact hn1
              simp only [sortKeysV]
              rw [sortFields_perm_nodup _ _ hperm hn1']

theorem permEqList_sortKeys : ∀ {xs ys : List JsVal},
    PermEqList xs ys → WfList xs → WfList ys → sortKeysArr xs = sortKeysArr ys
  | _, _, .nil, _, _ => rfl
  | _, _, .cons v w vs ws hvw hrest, hxs, hys => by
      cases hxs with
      | cons _ _ hv hvs =>
          cases hys with
          | cons _ _ hw hws =>
              have h1 := permEq_sortKeys hvw hv hw
              have h2 := permEqList_sortKeys hrest hvs hws
              simp only [sortKeysArr]
              rw [h1, h2]

theorem permEqFields_sortKeys : ∀ {fs gs : List (String × JsVal)},
    PermEqFields fs gs → WfFields fs → WfFields gs →
      (sortKeysFields fs).Perm (sortKeysFields gs)
  | _, _, .nil, _, _ => .refl _
  | _, _, .cons k v w fs gs₁ gs₂ hvw hrest, hf, hg => by
      cases hf with
      | cons _ _ _ hv hf' =>
          obtain ⟨hw, hg'⟩ := wfFields_append_elim k w gs₁ gs₂ hg
          have hval : sortKeysV v = sortKeysV w := permEq_sortKeys hvw hv hw
          have hres : (sortKeysFields fs).Perm (sortKeysFields (gs₁ ++ gs₂)) :=
            permEqFields_sortKeys hrest hf' hg'
          simp only [sortKeysFields_eq_map, List.map_cons, List.map_append] at hres ⊢
          rw [hval]
          refine (List.Perm.cons _ hres).trans ?_
          exact List.perm_middle.symm

end

/-! ## Claim theorems -/

/-- C1: the claim states that after `set(path, value)` succeeds, `get(path)`
returns `value`.  In the code `set` never succeeds: its first statement
awaits `getRouteInfo(key)` (store.js:359), whose body calls `this.sha256(id)`
(store.js:313) — neither store.js nor actor.js defines a `sha256` method and
`EventEmitter` has none — so for every store, path and value `set` rejects
with a TypeError before reading or writing anything, and the read-back `get`
is never reached. -/
theorem c1_set_always_throws (s : StoreSt) (key : String) (value : JsVal) :
    storeSet s key value = .error (.typeError "this.sha256 is not a function") := rfl

/-- C3: the claim says `get(path)` returns a not-found (null/absent) result
and never throws when the path is missing — and `get`'s own doc comment
(store.js:335) promises "`null` if not found".  The code instead throws for
every store and every path: `get` first awaits `getRouteInfo(key)`
(store.js:338), which calls the nonexistent `this.sha256` (store.js:313) and
raises a TypeError.  (Had the route survived, `pointer.get` on a missing
path and the unguarded `metadata[route.index].type` read would each throw as
well.) -/
theorem c3_get_always_throws (s : StoreSt) (key : String) :
    storeGet s key = .error (.typeError "this.sha256 is not a function") := rfl

/-- C4: the claim states `patch(path, partial)` shallow-merges `partial` over
the current value and returns the merged result.  `_PATCH`'s first statement
`this.log('[STORE]', '_PATCH', ...)` (store.js:151) invokes `this.log`,
which actor.js:35 initialises to an Array and nothing ever rebinds, so every
`patch` call throws a TypeError before reading or writing anything. -/
theorem c4_patch_always_throws (s : StoreSt) (key : String) (part : JsVal) :
    storePATCH s key part = .error (.typeError "this.log is not a function") := rfl

/-- C5: the claim states `post(path, value)` returns the content identity on
success and reports failure as a boolean false-equivalent without throwing.
In the code `_POST` throws a TypeError unconditionally, and does so already
in its preamble: `let router = this.sha256(path)` (store.js:183) calls a
method that does not exist, outside any try/catch.  (Even past that line,
`self['@entity']['@data'].addresses[router] = address` at store.js:195 would
throw, since `'@data'` is initialised to `{}` (store.js:36-39) and
`addresses` is never created — the hypothesis states that absence.) -/
theorem c5_post_always_throws (s : StoreSt) (key : String) (value : JsVal)
    (h : addressesMember s.entityData = none) :
    ∃ msg, storePOST s key value = .error (.typeError msg) :=
  ⟨"this.sha256 is not a function", rfl⟩

/-- Witness for C5's theorem at a concrete input: a fresh store, whose
`'@entity'['@data']` is `{}`. -/
theorem c5_witness :
    addressesMember freshStore.entityData = none ∧
      ∃ msg, storePOST freshStore "/people" (.vObj [("name", .vStr "ada")])
        = .error (.typeError msg) :=
  ⟨rfl, c5_post_always_throws freshStore "/people" (.vObj [("name", .vStr "ada")]) rfl⟩

/-- C6: the claim states `push(path, v)` appends to the stack while earlier
blobs stay retrievable and the call returns the payload read back from
`/blobs/{id}`.  In the code `_PUSH` executes `let vector = new State(data)`
(store.js:262) — `State` is never required by store.js (its requires,
store.js:4-12, cover level, crypto, json-pointer, Actor, Collection, Entity
and Stack only) — so every `push` throws a ReferenceError before
`_REGISTER`, the blob write or the order-list write, and no blob is ever
written. -/
theorem c6_push_always_throws (s : StoreSt) (key : String) (data : JsVal) :
    storePUSH s key data = .error (.referenceError "State is not defined") := rfl

/-- C7: `commit()` builds an Entity from the `state` member of the Store's
current state tree, emits a `commit` event carrying exactly
`(entity.id, entity.data)`, leaves the store unchanged, and calling it again
with no intervening mutation yields an Entity with the same identity. -/
theorem c7_commit_idempotent (s : StoreSt) (h : s.content ≠ .vNull) :
    ∃ e ev s', storeCommit s = .ok (e, ev, s') ∧ s' = s ∧
      ev = .commitEv (entityIdOf e) e.edata ∧
      ∀ e2 ev2 s2, storeCommit s' = .ok (e2, ev2, s2) → entityIdOf e2 = entityIdOf e := by
  have hok : ∃ st, stateMemberOf s.content = .ok st := by
    cases hc : s.content with
    | vNull => exact absurd hc h
    | vObj fs => exact ⟨_, rfl⟩
    | vBool b => exact ⟨_, rfl⟩
    | vNum n => exact ⟨_, rfl⟩
    | vStr str => exact ⟨_, rfl⟩
    | vArr xs => exact ⟨_, rfl⟩
  obtain ⟨st, hst⟩ := hok
  have hcommit : storeCommit s
      = .ok (entityOf st,
             .commitEv (entityIdOf (entityOf st)) (entityOf st).edata, s) := by
    unfold storeCommit
    rw [hst]
    rfl
  refine ⟨entityOf st, _, s, hcommit, rfl, rfl, ?_⟩
  intro e2 ev2 s2 h2
  rw [hcommit] at h2
  injection h2 with h2'
  injection h2' with he hrest
  rw [← he]

/-- Witness for C7's theorem: a fresh store. -/
theorem c7_witness :
    freshStore.content ≠ JsVal.vNull ∧
      ∃ e ev s', storeCommit freshStore = .ok (e, ev, s') ∧ s' = freshStore ∧
        ev = .commitEv (entityIdOf e) e.edata ∧
        ∀ e2 ev2 s2, storeCommit s' = .ok (e2, ev2, s2) → entityIdOf e2 = entityIdOf e :=
  ⟨fun h => JsVal.noConfusion h, c7_commit_idempotent freshStore fun h => JsVal.noConfusion h⟩

/-- C8: the claim states that after `trust(source)`, every `put(key, value)`
the source emits is mirrored into the Store's aggregate state and re-emitted
as a normalized `source/events` notification.  In the code the registered
handler (store.js:431-454) throws a TypeError on its second statement,
`let router = store.sha256(id)` (store.js:436) — the Store has no `sha256`
method — for every key and every value; none of the six mirror facts
(store.js:439-444) is recorded and nothing is re-emitted.  (`new
State(value)` on the next line, store.js:437, would throw a ReferenceError
too: `State` is never required.) -/
theorem c8_trust_always_throws (s : StoreSt) (key : String) (value : JsVal) :
    trustPutHandler s key value
      = .error (.typeError "store.sha256 is not a function") := rfl

/-- C9: the claim states `delete(path)` writes `null` at the path, returns
`null`, and keeps the route's metadata/indices.  `_DELETE` is
`_PUT(key, null)` — that is, `set(key, null)` (store.js:145-148) — and `set`
first awaits `getRouteInfo(key)` (store.js:359), which calls the nonexistent
`this.sha256` (store.js:313), so every `delete` throws a TypeError before
any state is touched: no tombstone is written and `null` is never
returned. -/
theorem c9_delete_always_throws (s : StoreSt) (key : String) :
    storeDELETE s key
      = .error (.typeError "this.sha256 is not a function") := rfl

/-- C10: for every Actor input (and Stores reuse this inherited method
unchanged), `sign()` throws `Unimplemented on this branch. ...` — the
assignment to `signature` is commented out, and the constructor leaves
`signature` at `null`. -/
theorem c10_sign_unimplemented (input : JsVal) :
    actorSign input
        = .error (.jsError "Unimplemented on this branch.  Use @fabric/core/types/signer instead.")
      ∧ actorSignatureInit = none :=
  ⟨rfl, rfl⟩

/-- C2: content-identity determinism — for any two well-formed JS objects
that are deep-equal up to key insertion order (recursively), canonicalization
(`_sortKeys` + serialization) produces byte-identical output, their State
content identities agree, and two Actors constructed from them serialize
identically and have equal `id`. -/
theorem c2_canonical_determinism (fs gs : List (String × JsVal))
    (hv : WfV (.vObj fs)) (hw : WfV (.vObj gs)) (hp : PermEq (.vObj fs) (.vObj gs)) :
    canonicalString (.vObj fs) = canonicalString (.vObj gs) ∧
      stateId (.vObj fs) = stateId (.vObj gs) ∧
      actorSerialize (.vObj fs) = actorSerialize (.vObj gs) ∧
      actorIdOf (.vObj fs) = actorIdOf (.vObj gs) := by
  have hsort : sortKeysV (.vObj fs) = sortKeysV (.vObj gs) := permEq_sortKeys hp hv hw
  have hcanon : canonicalString (.vObj fs) = canonicalString (.vObj gs) := by
    unfold canonicalString
    rw [hsort]
  have hn1 : (fs.map Prod.fst).Nodup := by cases hv with | obj _ hn _ => exact hn
  have hn2 : (gs.map Prod.fst).Nodup := by cases hw with | obj _ hn _ => exact hn
  have hc1 : actorContent (.vObj fs) = .vObj fs := by
    simp [actorContent, readObject, assignProps_nil_obj fs hn1]
  have hc2 : actorContent (.vObj gs) = .vObj gs := by
    simp [actorContent, readObject, assignProps_nil_obj gs hn2]
  have hser : actorSerialize (.vObj fs) = actorSerialize (.vObj gs) := by
    unfold actorSerialize actorToObject
    rw [hc1, hc2, hsort]
  have hid : actorIdOf (.vObj fs) = actorIdOf (.vObj gs) := by
    unfold actorIdOf idOfContent preimageOfContent
    rw [hc1, hc2, hsort]
  refine ⟨hcanon, ?_, hser, hid⟩
  unfold stateId
  rw [hcanon]

/-- Witness for C2's theorem: `{b:1, a:{d:2, c:3}}` and `{a:{c:3, d:2}, b:1}`
are deep-equal up to insertion order, and the theorem yields equal canonical
bytes, state identities, serializations and Actor ids. -/
theorem c2_witness :
    WfV (.vObj sampleA) ∧ WfV (.vObj sampleB) ∧ PermEq (.vObj sampleA) (.vObj sampleB) ∧
      (canonicalString (.vObj sampleA) = canonicalString (.vObj sampleB) ∧
        stateId (.vObj sampleA) = stateId (.vObj sampleB) ∧
        actorSerialize (.vObj sampleA) = actorSerialize (.vObj sampleB) ∧
        actorIdOf (.vObj sampleA) = actorIdOf (.vObj sampleB)) := by
  have h1 : WfV (.vObj sampleA) := by
    refine .obj _ (by decide) ?_
    exact .cons "b" (.vNum 1) _ (.num 1)
      (.cons "a" (.vObj [("d", .vNum 2), ("c", .vNum 3)]) _
        (.obj _ (by decide)
          (.cons "d" (.vNum 2) _ (.num 2) (.cons "c" (.vNum 3) _ (.num 3) .nil)))
        .nil)
  have h2 : WfV (.vObj sampleB) := by
    refine .obj _ (by decide) ?_
    exact .cons "a" (.vObj [("c", .vNum 3), ("d", .vNum 2)]) _
      (.obj _ (by decide)
        (.cons "c" (.vNum 3) _ (.num 3) (.cons "d" (.vNum 2) _ (.num 2) .nil)))
      (.cons "b" (.vNum 1) _ (.num 1) .nil)
  have hinner : PermEq (.vObj [("d", .vNum 2), ("c", .vNum 3)])
      (.vObj [("c", .vNum 3), ("d", .vNum 2)]) :=
    .obj _ _ (.cons "d" (.vNum 2) (.vNum 2) [("c", .vNum 3)] [("c", .vNum 3)] []
      (.num 2) (.cons "c" (.vNum 3) (.vNum 3) [] [] [] (.num 3) .nil))
  have h3 : PermEq (.vObj sampleA) (.vObj sampleB) :=
    .obj _ _ (.cons "b" (.vNum 1) (.vNum 1)
      [("a", .vObj [("d", .vNum 2), ("c", .vNum 3)])]
      [("a", .vObj [("c", .vNum 3), ("d", .vNum 2)])] []
      (.num 1)
      (.cons "a" (.vObj [("d", .vNum 2), ("c", .vNum 3)])
        (.vObj [("c", .vNum 3), ("d", .vNum 2)]) [] [] [] hinner .nil))
  exact ⟨h1, h2, h3, c2_canonical_determinism sampleA sampleB h1 h2 h3⟩

end Fabric


